import Mathlib

/-!
Shallow embedding of `src/line_counts.py` (the `persian-meter` utility).

The script scans two fixed directories for `*.txt` files, sorts them by a
numeric-stem key, counts non-empty lines per file via `count_nonempty_lines`
(validating that the count is even and warning when it exceeds 28), and then
prints aggregate statistics (mean, median, min, max, sample standard
deviation, frequency distribution) over the per-file pair counts.

Console output is modelled as a list of structured `Out` events carrying the
printed data; raised exceptions are modelled with `Except String`, carrying
the exception message.  The filesystem is modelled as a map from directory
name to the enumeration-ordered list of its `*.txt` entries (`pathlib`'s
`glob` yields files in arbitrary filesystem order, which the model takes as
given).
-/

/-- Python whitespace for `str.strip`, restricted to the ASCII fragment
(space, tab, newline, vertical tab, form feed, carriage return); the full
table also has Unicode spaces, which no claim here touches. -/
def pyIsSpace (c : Char) : Bool :=
  c = ' ' || c = '\t' || c = '\n' || c = '\x0b' || c = '\x0c' || c = '\r'

/-- `line.strip()` is truthy iff the line has a non-whitespace character. -/
def pyLineNonblank (line : String) : Bool :=
  line.data.any (fun c => !pyIsSpace c)

/-- `sum(1 for line in f if line.strip())` over the lines of the file. -/
def nonemptyCount (lines : List String) : Nat :=
  (lines.filter pyLineNonblank).length

/-- One console print event, carrying the data the script interpolates into
the printed line. -/
inductive Out where
  /-- `print(f"{txt_file.name}: {count} lines")` -/
  | progress (filename : String) (count : Nat)
  /-- `print(f"File {filepath} has a large number of hemistichs: {total}")` -/
  | warnLarge (filepath : String) (total : Nat)
  /-- `print("\n" + "=" * 50)` -/
  | sepTop
  /-- `print("STATISTICS")` -/
  | statsTitle
  /-- `print("=" * 50)` -/
  | sepLine
  /-- `print(f"Total ghazals: {len(line_counts)}")` -/
  | totalGhazals (n : Nat)
  /-- `print(f"Mean lines per ghazal: {statistics.mean(counts_only):.2f}")` -/
  | meanLine (value : ℚ)
  /-- `print(f"Median lines per ghazal: {statistics.median(counts_only):.2f}")` -/
  | medianLine (value : ℚ)
  /-- `print(f"Min lines: {min(counts_only)}")` -/
  | minLine (value : Nat)
  /-- `print(f"Max lines: {max(counts_only)}")` -/
  | maxLine (value : Nat)
  /-- `print(f"Standard deviation: {statistics.stdev(counts_only):.2f}")`;
  the event records the sample variance, whose square root is printed. -/
  | stdevLine (varianceValue : ℚ)
  /-- `print("\nDistribution:")` -/
  | distHeader
  /-- `print(f"  {num_lines} lines: {distribution[num_lines]} ghazals")` -/
  | distLine (value : Nat) (freq : Nat)
  deriving DecidableEq

/-- Statistics-section events are everything the `if line_counts:` block
prints; the per-file progress line and the large-count warning are not. -/
def Out.isStats : Out → Bool
  | .progress _ _ => false
  | .warnLarge _ _ => false
  | _ => true

/-- Message of the `ValueError` raised on an odd non-empty line count. -/
def oddCountMsg (filepath : String) (total : Nat) : String :=
  "File " ++ filepath ++ " has an odd number of hemistichs: " ++ toString total

/-- `count_nonempty_lines`: counts lines that are non-empty after stripping,
raises `ValueError` when the count is odd, warns (without failing) when the
count exceeds 28, and returns `total // 2`.  The returned list holds the
warning events printed on the way. -/
def countNonemptyLines (filepath : String) (lines : List String) :
    Except String (List Out × Nat) :=
  let total := nonemptyCount lines
  if total % 2 ≠ 0 then
    .error (oddCountMsg filepath total)
  else
    .ok ((if 28 < total then [Out.warnLarge filepath total] else []), total / 2)

/-- Decimal-digit value of a character (`Numeric_Type=Decimal`), restricted
to the ASCII digits, the only decimal digits this development needs. -/
def pyDecimalVal (c : Char) : Option Nat :=
  if '0' ≤ c ∧ c ≤ '9' then some (c.toNat - '0'.toNat) else none

/-- Characters with Unicode `Numeric_Type=Digit` that are not decimal digits,
restricted to the superscript digits one, two, three (a partial model of the
full Unicode table; these are the only such code points used here).
`int()` rejects them although `str.isdigit` accepts them. -/
def pyDigitNonDecimal (c : Char) : Bool :=
  c = '¹' || c = '²' || c = '³'

/-- Per-character test behind Python `str.isdigit`. -/
def pyIsDigitChar (c : Char) : Bool :=
  (pyDecimalVal c).isSome || pyDigitNonDecimal c

/-- Python `s.isdigit()`: non-empty and every character a digit. -/
def pyStrIsDigit (s : String) : Bool :=
  !s.data.isEmpty && s.data.all pyIsDigitChar

/-- Python `int(s)` for the strings the sort key can pass it (every character
of digit type, so no sign, spaces or underscores arise): succeeds iff every
character is a decimal digit. -/
def pyIntParse (s : String) : Option Nat :=
  if s.data.isEmpty then none
  else
    s.data.foldl
      (fun acc c => do
        let a ← acc
        let d ← pyDecimalVal c
        pure (10 * a + d))
      (some 0)

/-- Message of the `ValueError` raised by `int()` on an unparseable literal. -/
def invalidIntMsg (s : String) : String :=
  "invalid literal for int() with base 10: \x27" ++ s ++ "\x27"

/-- Value of the sort key `int(x.stem) if x.stem.isdigit() else float("inf")`. -/
inductive SortKey where
  | num (n : Nat)
  | inf
  deriving DecidableEq

/-- Comparison of key values (`float("inf")` compares above every number). -/
def keyLe : SortKey → SortKey → Bool
  | .num a, .num b => a ≤ b
  | .num _, .inf => true
  | .inf, .num _ => false
  | .inf, .inf => true

/-- The sort key itself; it raises `ValueError` on a stem that `isdigit`
accepts but `int()` cannot parse. -/
def pyKey (stem : String) : Except String SortKey :=
  if pyStrIsDigit stem then
    match pyIntParse stem with
    | some n => .ok (.num n)
    | none => .error (invalidIntMsg stem)
  else
    .ok .inf

/-- One `*.txt` directory entry: filename stem plus file contents as lines. -/
structure FileEntry where
  stem : String
  lines : List String
  deriving DecidableEq

/-- `sorted` computes the key of every element, in enumeration order, before
comparing; the first key failure aborts the whole call. -/
def computeKeys : List FileEntry → Except String (List (SortKey × FileEntry))
  | [] => .ok []
  | f :: fs =>
    match pyKey f.stem with
    | .error e => .error e
    | .ok k => (computeKeys fs).map (fun rest => (k, f) :: rest)

/-- Stable insertion into a key-sorted list: the new element goes before the
first element it compares less-or-equal to, hence before later-enumerated
elements of equal key and after earlier-enumerated ones. -/
def ordInsert (p : SortKey × FileEntry) :
    List (SortKey × FileEntry) → List (SortKey × FileEntry)
  | [] => [p]
  | q :: l => if keyLe p.1 q.1 then p :: q :: l else q :: ordInsert p l

/-- Stable sort by key (Python's `sorted` is stable; any stable sort under
the same total key order produces the same list). -/
def isort : List (SortKey × FileEntry) → List (SortKey × FileEntry)
  | [] => []
  | p :: l => ordInsert p (isort l)

/-- `sorted(dir_path.glob("*.txt"), key=...)`: key computation (which can
raise) followed by a stable sort on key values. -/
def sortTxtFiles (files : List FileEntry) : Except String (List FileEntry) :=
  (computeKeys files).map (fun keyed => (isort keyed).map Prod.snd)

/-- The per-file loop body of `main`: count each file (its warning events
first, then the progress print), accumulating `(txt_file.name, count)` pairs;
a `ValueError` from an odd count aborts the rest of the loop. -/
def processFiles (dirName : String) :
    List FileEntry → List Out × Except String (List (String × Nat))
  | [] => ([], .ok [])
  | f :: rest =>
    match countNonemptyLines (dirName ++ "/" ++ f.stem ++ ".txt") f.lines with
    | .error e => ([], .error e)
    | .ok (ws, c) =>
      (ws ++ Out.progress (f.stem ++ ".txt") c :: (processFiles dirName rest).1,
       (processFiles dirName rest).2.map (fun lcs => (f.stem ++ ".txt", c) :: lcs))

/-- The filesystem: directory name to enumeration-ordered `*.txt` entries,
`none` when the directory does not exist. -/
abbrev FS := String → Option (List FileEntry)

/-- Message of the `ValueError` raised on a missing directory. -/
def dirMissingMsg (d : String) : String :=
  "Directory " ++ d ++ " does not exist"

/-- One iteration of the directory loop: existence check, sort, then the
per-file loop. -/
def runOneDir (fs : FS) (d : String) :
    List Out × Except String (List (String × Nat)) :=
  match fs d with
  | none => ([], .error (dirMissingMsg d))
  | some files =>
    match sortTxtFiles files with
    | .error e => ([], .error e)
    | .ok sortedFiles => processFiles d sortedFiles

/-- The directory loop of `main`: output printed before an exception is
retained, and measurements accumulate across directories. -/
def runAllDirs (fs : FS) : List String → List Out × Except String (List (String × Nat))
  | [] => ([], .ok [])
  | d :: ds =>
    match (runOneDir fs d).2 with
    | .error e => ((runOneDir fs d).1, .error e)
    | .ok lcs =>
      ((runOneDir fs d).1 ++ (runAllDirs fs ds).1,
       (runAllDirs fs ds).2.map (fun more => lcs ++ more))

/-- Stable insertion for sorting the natural-number measurements. -/
def natSortInsert (x : Nat) : List Nat → List Nat
  | [] => [x]
  | y :: l => if x ≤ y then x :: y :: l else y :: natSortInsert x l

/-- Ascending sort of the measurements (`sorted(data)` inside `statistics`,
`sorted(distribution.keys())` for the distribution section). -/
def natSort : List Nat → List Nat
  | [] => []
  | x :: l => natSortInsert x (natSort l)

/-- `statistics.mean`: exact arithmetic mean (only applied to non-empty
data, guarded by `if line_counts:`). -/
def pyMean (xs : List Nat) : ℚ :=
  (xs.sum : ℚ) / (xs.length : ℚ)

/-- `statistics.median`: middle element of the sorted data, or the average
of the two middle elements (only applied to non-empty data). -/
def pyMedian (xs : List Nat) : ℚ :=
  let s := natSort xs
  let n := s.length
  if n % 2 = 1 then (s.getD (n / 2) 0 : ℚ)
  else ((s.getD (n / 2 - 1) 0 : ℚ) + (s.getD (n / 2) 0 : ℚ)) / 2

/-- `min(counts_only)` (only applied to non-empty data). -/
def listMin (xs : List Nat) : Nat := xs.foldl min (xs.headD 0)

/-- `max(counts_only)` (only applied to non-empty data). -/
def listMax (xs : List Nat) : Nat := xs.foldl max (xs.headD 0)

/-- Message of the `StatisticsError` raised by `statistics.stdev` on fewer
than two data points. -/
def stdevErrMsg : String := "stdev requires at least two data points"

/-- Sample variance with Bessel's correction, the square of what
`statistics.stdev` returns. -/
def pySampleVariance (xs : List Nat) : ℚ :=
  let m := pyMean xs
  (xs.map (fun x => ((x : ℚ) - m) ^ 2)).sum / ((xs.length : ℚ) - 1)

/-- `statistics.stdev`, modelled up to the final square root: fails on fewer
than two data points, else yields the sample variance (the printed value is
its square root, rendered to two decimals). -/
def pyStdevVariance (xs : List Nat) : Except String ℚ :=
  if xs.length < 2 then .error stdevErrMsg
  else .ok (pySampleVariance xs)

/-- The distinct values among the measurements (the key set of
`Counter(counts_only)`; its enumeration order is irrelevant because the
report sorts the keys). -/
def dedupKeys : List Nat → List Nat
  | [] => []
  | x :: l => let r := dedupKeys l; if x ∈ r then r else x :: r

/-- `Counter(counts_only)` enumerated over `sorted(distribution.keys())`:
each distinct value, ascending, with its multiplicity. -/
def distribution (xs : List Nat) : List (Nat × Nat) :=
  (natSort (dedupKeys xs)).map (fun k => (k, xs.count k))

/-- The `if line_counts:` statistics block of `main`: prints the banner,
count, mean, median, min and max, then the standard-deviation line (whose
computation can raise and lose the rest of the block), then the
distribution. -/
def reportStats (lineCounts : List (String × Nat)) :
    List Out × Except String Unit :=
  if lineCounts.isEmpty then ([], .ok ())
  else
    let counts := lineCounts.map Prod.snd
    let pre : List Out :=
      [Out.sepTop, Out.statsTitle, Out.sepLine,
       Out.totalGhazals lineCounts.length,
       Out.meanLine (pyMean counts), Out.medianLine (pyMedian counts),
       Out.minLine (listMin counts), Out.maxLine (listMax counts)]
    match pyStdevVariance counts with
    | .error e => (pre, .error e)
    | .ok v =>
      (pre ++ Out.stdevLine v :: Out.distHeader ::
         (distribution counts).map (fun p => Out.distLine p.1 p.2),
       .ok ())

/-- `ghazal_dirs = ["hafiz-1", "hafiz-2"]`. -/
def ghazalDirs : List String := ["hafiz-1", "hafiz-2"]

/-- `main()`: the directory loop followed by the statistics block; an
exception anywhere carries out of `main`, keeping the output printed so
far. -/
def mainRun (fs : FS) : List Out × Except String Unit :=
  match (runAllDirs fs ghazalDirs).2 with
  | .error e => ((runAllDirs fs ghazalDirs).1, .error e)
  | .ok lineCounts =>
    ((runAllDirs fs ghazalDirs).1 ++ (reportStats lineCounts).1,
     (reportStats lineCounts).2)

deriving instance DecidableEq for Except

/-- All one-step insertions of `a` into a list. -/
def inserts (a : α) : List α → List (List α)
  | [] => [[a]]
  | b :: l => (a :: b :: l) :: (inserts a l).map (b :: ·)

/-- All permutations of a list, as an executable enumeration (used to state
claims that quantify over the filesystem's arbitrary enumeration order). -/
def permsOf : List α → List (List α)
  | [] => [[]]
  | a :: l => (permsOf l).flatMap (inserts a)

theorem self_mem_inserts (a : α) : ∀ u : List α, (a :: u) ∈ inserts a u
  | [] => by simp [inserts]
  | _ :: _ => by simp [inserts]

theorem mem_inserts_append (a : α) :
    ∀ (s u : List α), (s ++ a :: u) ∈ inserts a (s ++ u)
  | [], u => self_mem_inserts a u
  | b :: s, u => by
    simp only [List.cons_append, inserts, List.mem_cons, List.mem_map]
    exact Or.inr ⟨s ++ a :: u, mem_inserts_append a s u, rfl⟩

/-- Every permutation of `t` appears in the enumeration `permsOf t`. -/
theorem perm_mem_permsOf : ∀ {t l : List α}, l.Perm t → l ∈ permsOf t
  | [], l, h => by simp [permsOf, h.eq_nil]
  | a :: t, l, h => by
    have ha : a ∈ l := h.mem_iff.mpr (List.mem_cons_self a t)
    obtain ⟨s, u, rfl⟩ := List.append_of_mem ha
    have h2 : (s ++ u).Perm t := (List.perm_middle.symm.trans h).cons_inv
    have hm : (s ++ u) ∈ permsOf t := perm_mem_permsOf h2
    simp only [permsOf, List.mem_flatMap]
    exact ⟨s ++ u, hm, mem_inserts_append a s u⟩

theorem countNonemptyLines_warnings_not_stats {fp : String} {lines : List String}
    {ws : List Out} {c : Nat} (h : countNonemptyLines fp lines = .ok (ws, c)) :
    ∀ o ∈ ws, o.isStats = false := by
  simp only [countNonemptyLines] at h
  split at h
  · exact absurd h (by simp)
  · simp only [Except.ok.injEq, Prod.mk.injEq] at h
    obtain ⟨hws, -⟩ := h
    subst hws
    split <;> simp [Out.isStats]

theorem processFiles_not_stats (d : String) :
    ∀ files : List FileEntry, ∀ o ∈ (processFiles d files).1, o.isStats = false
  | [] => by simp [processFiles]
  | f :: rest => by
    intro o ho
    simp only [processFiles] at ho
    cases hc : countNonemptyLines (d ++ "/" ++ f.stem ++ ".txt") f.lines with
    | error e => rw [hc] at ho; simp at ho
    | ok p =>
      obtain ⟨ws, c⟩ := p
      rw [hc] at ho
      simp only [List.mem_append, List.mem_cons] at ho
      rcases ho with h1 | h2 | h3
      · exact countNonemptyLines_warnings_not_stats hc o h1
      · subst h2; rfl
      · exact processFiles_not_stats d rest o h3

theorem runOneDir_not_stats (fs : FS) (d : String) :
    ∀ o ∈ (runOneDir fs d).1, o.isStats = false := by
  cases hd : fs d with
  | none => simp [runOneDir, hd]
  | some files =>
    cases hs : sortTxtFiles files with
    | error e => simp [runOneDir, hd, hs]
    | ok sortedFiles =>
      simp only [runOneDir, hd, hs]
      exact processFiles_not_stats d sortedFiles

theorem runAllDirs_not_stats (fs : FS) :
    ∀ ds : List String, ∀ o ∈ (runAllDirs fs ds).1, o.isStats = false
  | [] => by simp [runAllDirs]
  | d :: ds => by
    intro o ho
    simp only [runAllDirs] at ho
    cases hc : (runOneDir fs d).2 with
    | error e =>
      rw [hc] at ho
      exact runOneDir_not_stats fs d o ho
    | ok lcs =>
      rw [hc] at ho
      simp only [List.mem_append] at ho
      rcases ho with h1 | h2
      · exact runOneDir_not_stats fs d o h1
      · exact runAllDirs_not_stats fs ds o h2

/-- C1: for every file whose number of non-empty lines `N` (lines that are
non-empty after stripping surrounding whitespace) is even,
`count_nonempty_lines` returns exactly `N / 2`. -/
theorem c1_even_count_returns_half (fp : String) (lines : List String)
    (h : nonemptyCount lines % 2 = 0) :
    ∃ ws, countNonemptyLines fp lines = .ok (ws, nonemptyCount lines / 2) := by
  refine ⟨if 28 < nonemptyCount lines then [Out.warnLarge fp (nonemptyCount lines)]
    else [], ?_⟩
  simp [countNonemptyLines, h]

theorem c1_witness :
    nonemptyCount ["ab", "cd", "", "ef", "gh"] % 2 = 0 ∧
    ∃ ws, countNonemptyLines "hafiz-1/1.txt" ["ab", "cd", "", "ef", "gh"] =
      .ok (ws, nonemptyCount ["ab", "cd", "", "ef", "gh"] / 2) :=
  ⟨by decide, c1_even_count_returns_half "hafiz-1/1.txt" _ (by decide)⟩

/-- C2: for every file whose number of non-empty lines `N` is odd,
`count_nonempty_lines` raises a validation error whose message names that
file and `N`; and any error raised during the counting phase aborts the
whole run, so the output holds no statistics-section line, not even for
files already processed before the failure. -/
theorem c2_odd_count_aborts_run :
    (∀ (fp : String) (lines : List String),
        nonemptyCount lines % 2 = 1 →
        countNonemptyLines fp lines =
          .error (oddCountMsg fp (nonemptyCount lines))) ∧
    (∀ (fs : FS) (outs : List Out) (e : String),
        runAllDirs fs ghazalDirs = (outs, .error e) →
        mainRun fs = (outs, .error e) ∧ ∀ o ∈ outs, o.isStats = false) := by
  constructor
  · intro fp lines h
    simp [countNonemptyLines, h]
  · intro fs outs e h
    have h2 : (runAllDirs fs ghazalDirs).2 = .error e := by rw [h]
    have h1 : (runAllDirs fs ghazalDirs).1 = outs := by rw [h]
    refine ⟨?_, ?_⟩
    · simp [mainRun, h2, h1]
    · intro o ho
      rw [← h1] at ho
      exact runAllDirs_not_stats fs ghazalDirs o ho

/-- Filesystem with a valid first file and a second file of odd count. -/
def fsOdd : FS := fun d =>
  if d = "hafiz-1" then some [⟨"1", ["ab", "cd"]⟩, ⟨"2", ["ab", "cd", "ef"]⟩]
  else if d = "hafiz-2" then some [] else none

theorem c2_witness :
    countNonemptyLines "hafiz-1/2.txt" ["ab", "cd", "ef"] =
      .error (oddCountMsg "hafiz-1/2.txt" (nonemptyCount ["ab", "cd", "ef"])) ∧
    (mainRun fsOdd = ([Out.progress "1.txt" 1],
        .error (oddCountMsg "hafiz-1/2.txt" 3)) ∧
      ∀ o ∈ [Out.progress "1.txt" 1], o.isStats = false) :=
  ⟨c2_odd_count_aborts_run.1 "hafiz-1/2.txt" ["ab", "cd", "ef"] (by decide),
   c2_odd_count_aborts_run.2 fsOdd [Out.progress "1.txt" 1]
     (oddCountMsg "hafiz-1/2.txt" 3) (by decide)⟩

/-- C5: blank and whitespace-only lines never contribute: the result only
depends on the lines that are non-empty after stripping; 4 content lines
interspersed with 10 blank lines give pair count 2; a file of only
whitespace-only lines, or an empty file, gives 0 without error. -/
theorem c5_blank_lines_ignored :
    (∀ (fp : String) (lines : List String),
        countNonemptyLines fp lines =
          countNonemptyLines fp (lines.filter pyLineNonblank)) ∧
    (∀ (fp : String) (lines : List String),
        (∀ l ∈ lines, pyLineNonblank l = false) →
        countNonemptyLines fp lines = .ok ([], 0)) ∧
    countNonemptyLines "hafiz-1/5.txt"
      ["w", "", "x", " ", "\t", "y", "", "", "z", "  ", "", "", " \t ", ""] =
      .ok ([], 2) ∧
    countNonemptyLines "hafiz-1/6.txt" [] = .ok ([], 0) := by
  refine ⟨?_, ?_, by decide, by decide⟩
  · intro fp lines
    have hn : nonemptyCount (lines.filter pyLineNonblank) = nonemptyCount lines := by
      simp [nonemptyCount, List.filter_filter]
    simp only [countNonemptyLines]
    rw [hn]
  · intro fp lines h
    have hf : lines.filter pyLineNonblank = [] :=
      List.filter_eq_nil_iff.mpr (by simpa using h)
    simp [countNonemptyLines, nonemptyCount, hf]

theorem c5_witness :
    countNonemptyLines "hafiz-1/7.txt" ["ab", "", "cd"] =
      countNonemptyLines "hafiz-1/7.txt" (["ab", "", "cd"].filter pyLineNonblank) ∧
    countNonemptyLines "hafiz-1/8.txt" ["", " ", "\t"] = .ok ([], 0) :=
  ⟨c5_blank_lines_ignored.1 "hafiz-1/7.txt" ["ab", "", "cd"],
   c5_blank_lines_ignored.2.1 "hafiz-1/8.txt" ["", " ", "\t"] (by decide)⟩

/-- C6: for every file with an even number `N` of non-empty lines with
`N > 28`, `count_nonempty_lines` succeeds, emits the warning notice, and
still returns `N / 2`: the warning never alters the value or aborts. -/
theorem c6_warning_keeps_result (fp : String) (lines : List String)
    (heven : nonemptyCount lines % 2 = 0) (hlarge : 28 < nonemptyCount lines) :
    countNonemptyLines fp lines =
      .ok ([Out.warnLarge fp (nonemptyCount lines)], nonemptyCount lines / 2) := by
  simp [countNonemptyLines, heven, hlarge]

theorem c6_witness :
    nonemptyCount (List.replicate 30 "x") % 2 = 0 ∧
    28 < nonemptyCount (List.replicate 30 "x") ∧
    countNonemptyLines "hafiz-1/9.txt" (List.replicate 30 "x") =
      .ok ([Out.warnLarge "hafiz-1/9.txt" (nonemptyCount (List.replicate 30 "x"))],
        nonemptyCount (List.replicate 30 "x") / 2) :=
  ⟨by decide, by decide,
   c6_warning_keeps_result "hafiz-1/9.txt" (List.replicate 30 "x")
     (by decide) (by decide)⟩

/-- Filesystem where `hafiz-1` holds one valid file and `hafiz-2` is
missing. -/
def fsNoDir2 : FS := fun d =>
  if d = "hafiz-1" then some [⟨"1", ["ab", "cd"]⟩] else none

/-- C3 counterexample: with only the second directory missing, the run does
count a file and does emit its progress line before the directory-not-found
error, contradicting the claim that no file is counted and no progress line
is emitted before the error. -/
theorem c3_counterexample :
    mainRun fsNoDir2 = ([Out.progress "1.txt" 1], .error (dirMissingMsg "hafiz-2")) ∧
    Out.progress "1.txt" 1 ∈ (mainRun fsNoDir2).1 := by
  constructor
  · decide
  · decide

/-- C3 amended: a missing first directory aborts the run before any file
processing; a missing second directory aborts the run only after the first
directory has been fully processed, keeping its progress output and
producing no statistics section. -/
theorem c3_missing_dir_aborts :
    (∀ fs : FS, fs "hafiz-1" = none →
        mainRun fs = ([], .error (dirMissingMsg "hafiz-1"))) ∧
    (∀ (fs : FS) (outs : List Out) (lcs : List (String × Nat)),
        fs "hafiz-2" = none → runOneDir fs "hafiz-1" = (outs, .ok lcs) →
        mainRun fs = (outs, .error (dirMissingMsg "hafiz-2"))) := by
  constructor
  · intro fs h
    have h1 : runOneDir fs "hafiz-1" = ([], .error (dirMissingMsg "hafiz-1")) := by
      simp [runOneDir, h]
    simp [mainRun, runAllDirs, ghazalDirs, h1]
  · intro fs outs lcs h2 h1
    have hb : runOneDir fs "hafiz-2" = ([], .error (dirMissingMsg "hafiz-2")) := by
      simp [runOneDir, h2]
    simp [mainRun, runAllDirs, ghazalDirs, h1, hb, Except.map]

/-- Filesystem where both directories are missing. -/
def fsNoDirs : FS := fun _ => none

theorem c3_witness :
    mainRun fsNoDirs = ([], .error (dirMissingMsg "hafiz-1")) ∧
    mainRun fsNoDir2 = ([Out.progress "1.txt" 1], .error (dirMissingMsg "hafiz-2")) :=
  ⟨c3_missing_dir_aborts.1 fsNoDirs rfl,
   c3_missing_dir_aborts.2 fsNoDir2 [Out.progress "1.txt" 1] [("1.txt", 1)]
     rfl (by decide)⟩

theorem keyLe_refl (a : SortKey) : keyLe a a = true := by
  cases a <;> simp [keyLe]

theorem keyLe_total_of_not {a b : SortKey} (h : keyLe a b = false) :
    keyLe b a = true := by
  cases a <;> cases b <;> simp_all [keyLe]
  omega

theorem keyLe_trans {a b c : SortKey} (h1 : keyLe a b = true)
    (h2 : keyLe b c = true) : keyLe a c = true := by
  cases a <;> cases b <;> cases c <;> simp_all [keyLe]
  all_goals omega

theorem ordInsert_perm (p : SortKey × FileEntry) :
    ∀ kl : List (SortKey × FileEntry), (ordInsert p kl).Perm (p :: kl)
  | [] => by simp [ordInsert]
  | q :: l => by
    simp only [ordInsert]
    split
    · exact List.Perm.refl _
    · exact ((ordInsert_perm p l).cons q).trans (List.Perm.swap p q l)

theorem isort_perm : ∀ kl : List (SortKey × FileEntry), (isort kl).Perm kl
  | [] => List.Perm.refl _
  | p :: l => by
    simp only [isort]
    exact (ordInsert_perm p (isort l)).trans ((isort_perm l).cons p)

theorem ordInsert_pairwise (p : SortKey × FileEntry) :
    ∀ kl : List (SortKey × FileEntry),
      kl.Pairwise (fun x y => keyLe x.1 y.1 = true) →
      (ordInsert p kl).Pairwise (fun x y => keyLe x.1 y.1 = true)
  | [], _ => by simp [ordInsert]
  | q :: l, h => by
    obtain ⟨hq, hl⟩ := List.pairwise_cons.mp h
    by_cases hle : keyLe p.1 q.1 = true
    · simp only [ordInsert, hle, if_true]
      refine List.pairwise_cons.mpr ⟨?_, h⟩
      intro x hx
      rcases List.mem_cons.mp hx with rfl | hxl
      · exact hle
      · exact keyLe_trans hle (hq x hxl)
    · have hfalse : keyLe p.1 q.1 = false := by simpa using hle
      simp only [ordInsert, hfalse, Bool.false_eq_true, if_false]
      refine List.pairwise_cons.mpr ⟨?_, ordInsert_pairwise p l hl⟩
      intro x hx
      rcases List.mem_cons.mp ((ordInsert_perm p l).mem_iff.mp hx) with rfl | hxl
      · exact keyLe_total_of_not hfalse
      · exact hq x hxl

theorem isort_pairwise :
    ∀ kl : List (SortKey × FileEntry),
      (isort kl).Pairwise (fun x y => keyLe x.1 y.1 = true)
  | [] => by simp [isort]
  | p :: l => by
    simp only [isort]
    exact ordInsert_pairwise p (isort l) (isort_pairwise l)

theorem filter_ordInsert (k : SortKey) (p : SortKey × FileEntry) :
    ∀ kl : List (SortKey × FileEntry),
      (ordInsert p kl).filter (fun q => decide (q.1 = k)) =
        if p.1 = k then p :: kl.filter (fun q => decide (q.1 = k))
        else kl.filter (fun q => decide (q.1 = k))
  | [] => by
    by_cases hp : p.1 = k <;> simp [ordInsert, List.filter_cons, hp]
  | q :: l => by
    by_cases hle : keyLe p.1 q.1 = true
    · simp only [ordInsert, hle, if_true]
      by_cases hp : p.1 = k <;> simp [List.filter_cons, hp]
    · have hfalse : keyLe p.1 q.1 = false := by simpa using hle
      simp only [ordInsert, hfalse, Bool.false_eq_true, if_false]
      by_cases hp : p.1 = k <;> by_cases hq : q.1 = k
      · exact absurd (by rw [hp, hq]; exact keyLe_refl k) hle
      · simp [List.filter_cons, hp, hq, filter_ordInsert k p l]
      · simp [List.filter_cons, hp, hq, filter_ordInsert k p l]
      · simp [List.filter_cons, hp, hq, filter_ordInsert k p l]

theorem filter_isort (k : SortKey) :
    ∀ kl : List (SortKey × FileEntry),
      (isort kl).filter (fun q => decide (q.1 = k)) =
        kl.filter (fun q => decide (q.1 = k))
  | [] => rfl
  | p :: l => by
    simp only [isort]
    rw [filter_ordInsert k p (isort l), filter_isort k l]
    by_cases hp : p.1 = k <;> simp [List.filter_cons, hp]

theorem computeKeys_ok :
    ∀ {files : List FileEntry} {keyed : List (SortKey × FileEntry)},
      computeKeys files = .ok keyed →
      keyed.map Prod.snd = files ∧ ∀ p ∈ keyed, pyKey p.2.stem = .ok p.1
  | [], keyed, h => by
    simp only [computeKeys, Except.ok.injEq] at h
    subst h
    simp
  | f :: fs, keyed, h => by
    simp only [computeKeys] at h
    cases hk : pyKey f.stem with
    | error e => rw [hk] at h; simp at h
    | ok k =>
      rw [hk] at h
      cases hc : computeKeys fs with
      | error e => rw [hc] at h; simp [Except.map] at h
      | ok rest =>
        rw [hc] at h
        simp only [Except.map, Except.ok.injEq] at h
        subst h
        obtain ⟨h1, h2⟩ := computeKeys_ok hc
        refine ⟨by simp [h1], ?_⟩
        intro p hp
        rcases List.mem_cons.mp hp with rfl | hpl
        · simpa using hk
        · exact h2 p hpl

/-- C4 amended: whenever the sort succeeds, the processing order is a
permutation of the directory listing that is sorted by the key — numeric
stems in ascending numeric order and every numeric stem before every
non-numeric one — while the non-numeric stems keep the filesystem
enumeration order among themselves (they all share the one infinity key and
the sort is stable), not alphabetical order; in particular the spec's
four-stem example holds for every enumeration order. -/
theorem c4_sort_order :
    (∀ files sortedFiles : List FileEntry,
        sortTxtFiles files = .ok sortedFiles →
        sortedFiles.Perm files ∧
        sortedFiles.Pairwise (fun f g => ∀ a b : SortKey,
          pyKey f.stem = .ok a → pyKey g.stem = .ok b → keyLe a b = true) ∧
        sortedFiles.filter (fun f => decide (pyKey f.stem = .ok SortKey.inf)) =
          files.filter (fun f => decide (pyKey f.stem = .ok SortKey.inf))) ∧
    (∀ l : List FileEntry,
        l.Perm [⟨"2", []⟩, ⟨"10", []⟩, ⟨"1", []⟩, ⟨"abstract", []⟩] →
        sortTxtFiles l =
          .ok [⟨"1", []⟩, ⟨"2", []⟩, ⟨"10", []⟩, ⟨"abstract", []⟩]) := by
  constructor
  · intro files sortedFiles h
    simp only [sortTxtFiles] at h
    cases hc : computeKeys files with
    | error e => rw [hc] at h; simp [Except.map] at h
    | ok keyed =>
      rw [hc] at h
      simp only [Except.map, Except.ok.injEq] at h
      subst h
      obtain ⟨hmap, hkeys⟩ := computeKeys_ok hc
      have hmemsort : ∀ q ∈ isort keyed, pyKey q.2.stem = .ok q.1 :=
        fun q hq => hkeys q ((isort_perm keyed).mem_iff.mp hq)
      refine ⟨?_, ?_, ?_⟩
      · exact hmap ▸ (isort_perm keyed).map Prod.snd
      · rw [List.pairwise_map]
        refine List.Pairwise.imp_of_mem ?_ (isort_pairwise keyed)
        intro x y hx hy hxy a b ha hb
        have ha2 : a = x.1 := Except.ok.inj (ha.symm.trans (hmemsort x hx))
        have hb2 : b = y.1 := Except.ok.inj (hb.symm.trans (hmemsort y hy))
        rw [ha2, hb2]
        exact hxy
      · have hc1 : ∀ q ∈ isort keyed,
            ((fun f => decide (pyKey f.stem = .ok SortKey.inf)) ∘ Prod.snd) q =
              (fun q : SortKey × FileEntry => decide (q.1 = SortKey.inf)) q := by
          intro q hq
          simp only [Function.comp_apply, hmemsort q hq]
          exact decide_eq_decide.mpr (by simp)
        have hc2 : ∀ q ∈ keyed,
            ((fun f => decide (pyKey f.stem = .ok SortKey.inf)) ∘ Prod.snd) q =
              (fun q : SortKey × FileEntry => decide (q.1 = SortKey.inf)) q := by
          intro q hq
          simp only [Function.comp_apply, hkeys q hq]
          exact decide_eq_decide.mpr (by simp)
        calc ((isort keyed).map Prod.snd).filter
              (fun f => decide (pyKey f.stem = .ok SortKey.inf))
            = ((isort keyed).filter
                ((fun f => decide (pyKey f.stem = .ok SortKey.inf)) ∘
                  Prod.snd)).map Prod.snd := List.filter_map _ _
          _ = ((isort keyed).filter
                (fun q => decide (q.1 = SortKey.inf))).map Prod.snd := by
              rw [List.filter_congr hc1]
          _ = (keyed.filter
                (fun q => decide (q.1 = SortKey.inf))).map Prod.snd := by
              rw [filter_isort]
          _ = (keyed.filter
                ((fun f => decide (pyKey f.stem = .ok SortKey.inf)) ∘
                  Prod.snd)).map Prod.snd := by
              rw [List.filter_congr hc2]
          _ = (keyed.map Prod.snd).filter
                (fun f => decide (pyKey f.stem = .ok SortKey.inf)) :=
              (List.filter_map _ _).symm
          _ = files.filter (fun f => decide (pyKey f.stem = .ok SortKey.inf)) := by
              rw [hmap]
  · intro l h
    have key : ∀ l' ∈ permsOf ([⟨"2", []⟩, ⟨"10", []⟩, ⟨"1", []⟩,
        ⟨"abstract", []⟩] : List FileEntry),
        sortTxtFiles l' =
          .ok [⟨"1", []⟩, ⟨"2", []⟩, ⟨"10", []⟩, ⟨"abstract", []⟩] := by decide
    exact key l (perm_mem_permsOf h)

/-- Filesystem enumerating the non-numeric stems `b`, `a` in that order. -/
def fsEnumOrder : FS := fun d =>
  if d = "hafiz-1" then some [⟨"b", ["ab", "cd"]⟩, ⟨"a", ["ab", "cd"]⟩]
  else if d = "hafiz-2" then some [] else none

/-- C4 counterexample: two non-numeric stems `b`, `a` enumerated in that
order are processed as `b.txt` then `a.txt` — the enumeration order — and
not in the alphabetical order `a.txt`, `b.txt` the claim asserts. -/
theorem c4_counterexample :
    (mainRun fsEnumOrder).1.take 2 =
      [Out.progress "b.txt" 1, Out.progress "a.txt" 1] ∧
    (mainRun fsEnumOrder).1.take 2 ≠
      [Out.progress "a.txt" 1, Out.progress "b.txt" 1] := by
  constructor
  · decide
  · decide

theorem c4_witness :
    (([⟨"3", []⟩, ⟨"b", []⟩, ⟨"a", []⟩] : List FileEntry).Perm
        [⟨"b", []⟩, ⟨"3", []⟩, ⟨"a", []⟩] ∧
      ([⟨"3", []⟩, ⟨"b", []⟩, ⟨"a", []⟩] : List FileEntry).Pairwise
        (fun f g => ∀ a b : SortKey,
          pyKey f.stem = .ok a → pyKey g.stem = .ok b → keyLe a b = true) ∧
      ([⟨"3", []⟩, ⟨"b", []⟩, ⟨"a", []⟩] : List FileEntry).filter
          (fun f => decide (pyKey f.stem = .ok SortKey.inf)) =
        ([⟨"b", []⟩, ⟨"3", []⟩, ⟨"a", []⟩] : List FileEntry).filter
          (fun f => decide (pyKey f.stem = .ok SortKey.inf))) ∧
    sortTxtFiles [⟨"2", []⟩, ⟨"10", []⟩, ⟨"1", []⟩, ⟨"abstract", []⟩] =
      .ok [⟨"1", []⟩, ⟨"2", []⟩, ⟨"10", []⟩, ⟨"abstract", []⟩] :=
  ⟨c4_sort_order.1 [⟨"b", []⟩, ⟨"3", []⟩, ⟨"a", []⟩]
     [⟨"3", []⟩, ⟨"b", []⟩, ⟨"a", []⟩] (by decide),
   c4_sort_order.2 _ (List.Perm.refl _)⟩

/-- Filesystem whose first directory holds a valid numeric-stem file and a
file with the superscript-two stem. -/
def fsSuperscript : FS := fun d =>
  if d = "hafiz-1" then some [⟨"3", ["ab", "cd"]⟩, ⟨"²", []⟩]
  else if d = "hafiz-2" then some [] else none

/-- C9: the sort key is not total over filenames: the stem `²` satisfies
`isdigit` but `int()` cannot parse it, so the key raises `ValueError` during
sorting and the run aborts before any file of that directory is counted (the
output is empty: not even the valid file `3.txt` was processed). -/
theorem c9_superscript_stem_aborts :
    pyStrIsDigit "²" = true ∧ pyIntParse "²" = none ∧
    pyKey "²" = .error (invalidIntMsg "²") ∧
    mainRun fsSuperscript = ([], .error (invalidIntMsg "²")) := by
  refine ⟨by decide, by decide, by decide, by decide⟩

/-- The measurement sequence of the spec's Reporting example. -/
def lineCounts7 : List (String × Nat) :=
  [("1.txt", 4), ("2.txt", 4), ("3.txt", 6), ("4.txt", 8)]

/-- C7: over the measurements 4, 4, 6, 8 Reporting prints count 4, mean
11/2 (550 hundredths: `5.50`), median 5 (500 hundredths: `5.00`), min 4,
max 8, the sample variance 11/3 with Bessel's correction (whose square root
lies in [1.905, 1.915), so it renders as `1.91`), and the distribution
4 ↦ 2, 6 ↦ 1, 8 ↦ 1 in ascending order of value. -/
theorem c7_statistics_example :
    reportStats lineCounts7 =
      ([Out.sepTop, Out.statsTitle, Out.sepLine, Out.totalGhazals 4,
        Out.meanLine (11 / 2), Out.medianLine 5, Out.minLine 4, Out.maxLine 8,
        Out.stdevLine (11 / 3), Out.distHeader,
        Out.distLine 4 2, Out.distLine 6 1, Out.distLine 8 1], .ok ()) ∧
    pyMean [4, 4, 6, 8] * 100 = 550 ∧
    pyMedian [4, 4, 6, 8] * 100 = 500 ∧
    (1905 / 1000 : ℚ) ^ 2 ≤ pySampleVariance [4, 4, 6, 8] ∧
    pySampleVariance [4, 4, 6, 8] < (1915 / 1000 : ℚ) ^ 2 := by
  refine ⟨?_, ?_, ?_, ?_, ?_⟩
  · norm_num [reportStats, lineCounts7, pyStdevVariance, pySampleVariance,
      pyMean, pyMedian, listMin, listMax, distribution, dedupKeys, natSort,
      natSortInsert]
  · norm_num [pyMean]
  · norm_num [pyMedian, natSort, natSortInsert]
  · norm_num [pySampleVariance, pyMean]
  · norm_num [pySampleVariance, pyMean]

/-- C8: Reporting over a Collection of exactly one measurement fails — the
sample standard deviation is undefined for one data point — and the
`StatisticsError` is not caught: it becomes the result of the whole run. -/
theorem c8_single_measurement_fails :
    (∀ (name : String) (c : Nat),
        (reportStats [(name, c)]).2 = .error stdevErrMsg) ∧
    (∀ (fs : FS) (outs : List Out) (name : String) (c : Nat),
        runAllDirs fs ghazalDirs = (outs, .ok [(name, c)]) →
        (mainRun fs).2 = .error stdevErrMsg) := by
  have hrep : ∀ (name : String) (c : Nat),
      (reportStats [(name, c)]).2 = .error stdevErrMsg := by
    intro name c
    simp [reportStats, pyStdevVariance]
  refine ⟨hrep, ?_⟩
  intro fs outs name c h
  have h2 : (runAllDirs fs ghazalDirs).2 = .ok [(name, c)] := by rw [h]
  simp [mainRun, h2, hrep]

/-- Filesystem holding exactly one valid file overall (8 non-empty lines,
so a single measurement of 4). -/
def fsSingle : FS := fun d =>
  if d = "hafiz-1" then
    some [⟨"1", ["a1", "a2", "a3", "a4", "a5", "a6", "a7", "a8"]⟩]
  else if d = "hafiz-2" then some [] else none

theorem c8_witness :
    (reportStats [("1.txt", 4)]).2 = .error stdevErrMsg ∧
    (mainRun fsSingle).2 = .error stdevErrMsg :=
  ⟨c8_single_measurement_fails.1 "1.txt" 4,
   c8_single_measurement_fails.2 fsSingle [Out.progress "1.txt" 4] "1.txt" 4
     (by decide)⟩

/-- C10: the Reporting failure on a single measurement is not atomic: the
banner, total count, mean, median, minimum and maximum lines are all
printed before the standard-deviation computation raises, so partial
statistics output is produced despite the failure. -/
theorem c10_partial_stats_before_failure (fs : FS) (outs : List Out)
    (name : String) (c : Nat)
    (h : runAllDirs fs ghazalDirs = (outs, .ok [(name, c)])) :
    mainRun fs =
      (outs ++ [Out.sepTop, Out.statsTitle, Out.sepLine, Out.totalGhazals 1,
        Out.meanLine c, Out.medianLine c, Out.minLine c, Out.maxLine c],
       .error stdevErrMsg) := by
  have h2 : (runAllDirs fs ghazalDirs).2 = .ok [(name, c)] := by rw [h]
  have h1 : (runAllDirs fs ghazalDirs).1 = outs := by rw [h]
  have hrep : reportStats [(name, c)] =
      ([Out.sepTop, Out.statsTitle, Out.sepLine, Out.totalGhazals 1,
        Out.meanLine c, Out.medianLine c, Out.minLine c, Out.maxLine c],
       .error stdevErrMsg) := by
    simp [reportStats, pyStdevVariance, pyMean, pyMedian, natSort,
      natSortInsert, listMin, listMax]
  simp [mainRun, h1, h2, hrep]

/-- Filesystem with a single file of 12 non-empty lines (measurement 6). -/
def fsSingle6 : FS := fun d =>
  if d = "hafiz-1" then
    some [⟨"1", ["b1", "b2", "b3", "b4", "b5", "b6",
                 "b7", "b8", "b9", "ba", "bb", "bc"]⟩]
  else if d = "hafiz-2" then some [] else none

theorem c10_witness :
    mainRun fsSingle6 =
      ([Out.progress "1.txt" 6] ++
        [Out.sepTop, Out.statsTitle, Out.sepLine, Out.totalGhazals 1,
         Out.meanLine (6 : Nat), Out.medianLine (6 : Nat),
         Out.minLine 6, Out.maxLine 6],
       .error stdevErrMsg) :=
  c10_partial_stats_before_failure fsSingle6 [Out.progress "1.txt" 6]
    "1.txt" 6 (by decide)
